import Mathlib

set_option maxRecDepth 8000
set_option linter.unusedVariables false

deriving instance DecidableEq for Except

/-!
Shallow embedding of `src/pydapphubfuse.py` (class `PydAppHubFuse`).

The Python object state (`self.dapps`, `self.cache`, `self.filecache`,
`self.lastfd`) is modelled by the structure `FS`; each FUSE operation
becomes an explicit state-passing function returning `Except PyErr`.
A Python exception that is not a `FuseOSError` (e.g. `KeyError` from a
dict lookup, `UnicodeEncodeError` from `.encode('ascii')`) is modelled
by its own `PyErr` constructor.
-/

/-- One element of a descriptor's `ports` list: `{port:int, protocol:str, type:str}`. -/
structure Port where
  port : Nat
  protocol : String
  ptype : String
  deriving DecidableEq, Repr

/-- One catalog record (an element of the JSON array), with the fields
`genconfig` reads: `name`, `description`, `image`, `ports`. -/
structure Dapp where
  name : String
  description : String
  image : String
  ports : List Port
  deriving DecidableEq, Repr

/-- The mutable state of a `PydAppHubFuse` instance.
`dapps` is the dict `{v['name']: v}` (association list in insertion order),
`cache` is the config-file cache, `filecache` the open-handle table
(most recent binding first, as dict assignment overwrites), `lastfd` the
handle counter initialised to `-1`.  `genLog` is ghost instrumentation
only: it records the names for which `genconfig` was actually invoked,
so that invocation counts can be stated; no operation reads it. -/
structure FS where
  dapps : List (String × Dapp)
  cache : List (String × String)
  filecache : List (Int × String)
  lastfd : Int
  genLog : List String
  deriving DecidableEq, Repr

/-- The errno values the source raises via `FuseOSError`. -/
inductive Errno where
  | ENOENT
  | EACCES
  | EBADF
  deriving DecidableEq, Repr

/-- How an operation can fail: a deliberate `FuseOSError(errno)`, an
uncaught `KeyError` from a dict lookup/delete, or an uncaught
`UnicodeEncodeError` from `str.encode('ascii')`. -/
inductive PyErr where
  | fuseError (e : Errno)
  | keyError
  | unicodeEncodeError
  deriving DecidableEq, Repr

/-- Result of `classify`: `None` / `True` / a dapp-name string in the source. -/
inductive Classification where
  | invalid
  | dir
  | entityFile (name : String)
  deriving DecidableEq, Repr

/-! ### The regex `^/dapp@([A-Za-z-_]+).service.d(/.*)?$`

Python `re` semantics, specialised to this one pattern:
* `[A-Za-z-_]` is ASCII letters plus literal `-` and `_` (no digits);
* the two unescaped `.` match any character except `'\n'`;
* `([A-Za-z-_]+)` is greedy with backtracking: the longest character-class
  run is tried first, then shortened one character at a time;
* `(/.*)?` is greedy-optional: the present alternative is tried first;
* `$` matches at the end of the string or just before a final `'\n'`.
-/

/-- Membership in the character class `[A-Za-z-_]`. -/
def nameChar (c : Char) : Bool :=
  (('A' ≤ c && c ≤ 'Z') || ('a' ≤ c && c ≤ 'z')) || c == '-' || c == '_'

/-- `.*$` applied to `u`: succeeds iff `u` has no interior newline,
returning what `.*` consumed (everything, or everything before one
trailing newline). -/
def lineRemainder (u : List Char) : Option (List Char) :=
  let body := u.takeWhile (fun c => c ≠ '\n')
  match u.dropWhile (fun c => c ≠ '\n') with
  | [] => some body
  | ['\n'] => some body
  | _ => none

/-- `(/.*)?$` applied to `t`: greedy, so the present alternative
(`/` then `.*` then `$`) is tried before the absent one (`$` alone).
Returns the captured group-2 value (`none` = group absent). -/
def matchTail (t : List Char) : Option (Option (List Char)) :=
  match t with
  | '/' :: u =>
    match lineRemainder u with
    | some body => some (some ('/' :: body))
    | none => if t = [] ∨ t = ['\n'] then some none else none
  | _ => if t = [] ∨ t = ['\n'] then some none else none

/-- `.service.d(/.*)?$` applied to the text after group 1:
one non-newline character, the literal `service`, one non-newline
character, the literal `d`, then the optional group 2. -/
def matchRest (tail : List Char) : Option (Option (List Char)) :=
  match tail with
  | c1 :: rest =>
    if c1 = '\n' then none
    else if rest.take 7 = "service".toList then
      match rest.drop 7 with
      | c2 :: 'd' :: t => if c2 = '\n' then none else matchTail t
      | _ => none
    else none
  | [] => none

/-- Backtracking over the greedy `([A-Za-z-_]+)`: `p` is the maximal
character-class run after `/dapp@`, `s` the text after it.  Group-1
candidates `p.take k` are tried for `k = p.length, …, 1`. -/
def searchK (p s : List Char) : Nat → Option (List Char × Option (List Char))
  | 0 => none
  | k + 1 =>
    match matchRest (p.drop (k + 1) ++ s) with
    | some g2 => some (p.take (k + 1), g2)
    | none => searchK p s k

/-- `re.match("^/dapp@([A-Za-z-_]+).service.d(/.*)?$", path)`:
`none` = no match, otherwise `(group 1, group 2)`. -/
def reMatch (cs : List Char) : Option (List Char × Option (List Char)) :=
  match cs with
  | '/' :: 'd' :: 'a' :: 'p' :: 'p' :: '@' :: r =>
    searchK (r.takeWhile nameChar) (r.dropWhile nameChar) (r.takeWhile nameChar).length
  | _ => none

/-- `PydAppHubFuse.classify` (src/pydapphubfuse.py lines 32-57). -/
def classify (fs : FS) (path : String) : Classification :=
  if path = "/" then .dir
  else
    match reMatch path.toList with
    | none => .invalid
    | some (_, none) => .dir
    | some (g1, some fname) =>
      let dapp := String.mk g1
      if (fs.dapps.lookup dapp).isSome then
        if fname = "/dapp.conf".toList then .entityFile dapp else .invalid
      else .invalid

/-- `PydAppHubFuse.getobj`: `classify`, but a falsy result (`None`; `True`
and a non-empty group-1 string are truthy) raises `FuseOSError(ENOENT)`. -/
def getobj (fs : FS) (path : String) : Except PyErr Classification :=
  match classify fs path with
  | .invalid => .error (.fuseError .ENOENT)
  | obj => .ok obj

/-- Python `str.replace(old, new)` for single-character `old`/`new`. -/
def pyReplaceChar (s : List Char) (old new : Char) : List Char :=
  s.map fun c => if c = old then new else c

/-- `PydAppHubFuse.genconfig` (lines 70-104): the generated `dapp.conf`
text for one descriptor.  String interpolation is rendered as explicit
concatenation; `{port}` formats a Python int in decimal, as `toString`
does for `Nat`. -/
def genconfig (d : Dapp) : String :=
  let conf := "#\n# Automatically generated by FUSE from dApp Hub JSON\n# Do not [attempt] to edit\n#\n[Unit]\nDescription=" ++ d.description ++ "\n"
  let wants := (d.ports.filter fun p => p.ptype == "public").map fun p =>
    "Wants=forward-port@" ++ toString p.port ++ "-" ++ p.protocol ++ ".service"
  let conf := conf ++ String.intercalate "\n" wants
  let conf := conf ++ "\n\n"
  let conf := conf ++ "[Service]\n"
  let conf := conf ++ "Environment=DAPP_DOCKER_PORTS=\"" ++
    String.intercalate " " (d.ports.map fun p => "-p" ++ toString p.port ++ "/" ++ p.protocol) ++ "\""
  let conf := conf ++ "\n# Making sure we overwrite previous values\n"
  let conf := conf ++ "Environment=DAPP_DOCKER_IMAGE=" ++ d.image ++ "\n"
  let conf := conf ++ "Environment=DAPP_DOCKER_IMAGE_FILE=/var/lib/docker/preinstall/" ++
    String.mk (pyReplaceChar (pyReplaceChar d.image.toList '/' '_') ':' '_') ++ ".tar\n"
  conf ++ "\n"

/-- `PydAppHubFuse.getconfig` (lines 107-112): memoised `genconfig`.
`self.dapps[dapp]` raises `KeyError` (modelled as `none`) when the name
is not a catalog key; on a cache miss the generated text is stored and
the ghost `genLog` records the invocation. -/
def getconfig (fs : FS) (dapp : String) : Option (String × FS) :=
  match fs.cache.lookup dapp with
  | some v => some (v, fs)
  | none =>
    match fs.dapps.lookup dapp with
    | none => none
    | some d =>
      let v := genconfig d
      some (v, { fs with cache := (dapp, v) :: fs.cache, genLog := dapp :: fs.genLog })

/-- `PydAppHubFuse.access` (lines 114-121).  `os.W_OK = 2`, `os.X_OK = 1`. -/
def fuseAccess (fs : FS) (path : String) (mode : Nat) : Except PyErr Unit := do
  let obj ← getobj fs path
  let isdir : Bool := match obj with | .entityFile _ => false | _ => true
  if (mode &&& 2 != 0) || (!isdir && mode &&& 1 != 0) then
    .error (.fuseError .EACCES)
  else
    .ok ()

/-- `PydAppHubFuse.readdir` (lines 145-159).  The source guard
`if type(obj) is dict: raise FuseOSError(EBADF)` compares against `dict`,
but `classify` only ever returns `None`/`True`/a `str`, so the guard is
vacuously false; it is modelled by the constant it evaluates to. -/
def fuseReaddir (fs : FS) (path : String) : Except PyErr (List String) := do
  let obj ← getobj fs path
  let isDict : Bool := false
  if isDict then
    .error (.fuseError .EBADF)
  else if path = "/" then
    .ok ([".", ".."] ++ fs.dapps.map fun kv => "dapp@" ++ kv.1 ++ ".service.d")
  else
    .ok [".", "..", "dapp.conf"]

/-- `PydAppHubFuse.open` (lines 163-169): classify, generate/fetch the
content, allocate `lastfd + 1` in `filecache`.  When `classify` returns
`True` (a directory), `getconfig(True)` reaches `self.dapps[True]` and
raises `KeyError`. -/
def fuseOpen (fs : FS) (path : String) : Except PyErr (Int × FS) := do
  let obj ← getobj fs path
  match obj with
  | .invalid => .error (.fuseError .ENOENT)
  | .dir => .error .keyError
  | .entityFile n =>
    match getconfig fs n with
    | none => .error .keyError
    | some (v, fs1) =>
      let fd := fs1.lastfd + 1
      .ok (fd, { fs1 with lastfd := fd, filecache := (fd, v) :: fs1.filecache })

/-- `PydAppHubFuse.release` (lines 172-173): `del self.filecache[self.lastfd]`.
The handle argument `fh` is ignored; `del` on an absent key raises
`KeyError`. -/
def fuseRelease (fs : FS) (path : String) (fh : Int) : Except PyErr FS :=
  if (fs.filecache.lookup fs.lastfd).isSome then
    .ok { fs with filecache := fs.filecache.filter fun kv => kv.1 != fs.lastfd }
  else
    .error .keyError

/-- Python slice `s[a:b]` for `0 ≤ a` and `0 ≤ b`. -/
def pySlice (s : List Char) (a : Nat) (b : Int) : List Char :=
  (s.take b.toNat).drop a

/-- `PydAppHubFuse.read` (lines 175-178): look the handle up in
`filecache` (`KeyError` if absent), slice, `.encode('ascii')` — which
raises `UnicodeEncodeError` if the sliced text has a non-ASCII character,
and otherwise yields one byte per character. -/
def fuseRead (fs : FS) (path : String) (length offset : Nat) (fh : Int) :
    Except PyErr (List Nat) :=
  match fs.filecache.lookup fh with
  | none => .error .keyError
  | some doc =>
    let n : Int := (doc.toList.length : Int)
    let e : Int := (offset : Int) + min (n - (offset : Int)) (length : Int)
    let sl := pySlice doc.toList offset e
    if sl.all fun c => c.toNat < 128 then
      .ok (sl.map Char.toNat)
    else
      .error .unicodeEncodeError

/-- Descriptor used by the spec's scenario: one public tcp port 80. -/
def webDapp : Dapp :=
  { name := "web", description := "Web app", image := "org/web:1",
    ports := [{ port := 80, protocol := "tcp", ptype := "public" }] }

/-- A freshly constructed instance over the one-entry catalog `[webDapp]`. -/
def testFS : FS :=
  { dapps := [("web", webDapp)], cache := [], filecache := [], lastfd := -1, genLog := [] }

/-- The entity-file path of the `web` descriptor. -/
def confPath : String := "/dapp@web.service.d/dapp.conf"

/-- The generated config text of `webDapp`. -/
def webConf : String := genconfig webDapp

/-- `testFS` after `open(confPath)` returned handle `0`. -/
def stOpen1 : FS :=
  { dapps := [("web", webDapp)], cache := [("web", webConf)],
    filecache := [(0, webConf)], lastfd := 0, genLog := ["web"] }

/-- `stOpen1` after a second `open(confPath)` returned handle `1`. -/
def stOpen2 : FS := { stOpen1 with filecache := [(1, webConf), (0, webConf)], lastfd := 1 }

/-- `stOpen2` after `release(confPath, 0)`: the deleted entry is
handle `1` (the value of `lastfd`), not the handle `0` passed in. -/
def stRel : FS := { stOpen2 with filecache := [(0, webConf)] }

/-- An instance over an empty catalog. -/
def emptyFS : FS := { dapps := [], cache := [], filecache := [], lastfd := -1, genLog := [] }

/-- Number of occurrences of `pat` as a contiguous sublist of `s`
(one count per starting position). -/
def countSub : List Char → List Char → Nat
  | [], pat => if pat.isPrefixOf ([] : List Char) then 1 else 0
  | c :: rest, pat => (if pat.isPrefixOf (c :: rest) then 1 else 0) + countSub rest pat

/-- Descriptor with one public and one private port, as in the spec's
round-trip property. -/
def dualPortDapp : Dapp :=
  { name := "dual", description := "Dual", image := "org/dual:1",
    ports := [{ port := 80, protocol := "tcp", ptype := "public" },
              { port := 443, protocol := "tcp", ptype := "private" }] }

/-! Sanity checks: the embedding evaluated on concrete inputs agrees
with the observed behaviour of the Python code. -/

example : classify emptyFS "/" = .dir := by decide
example : classify emptyFS "/dapp@web.service.d" = .dir := by decide
example : classify emptyFS "/dapp@a0.service.d" = .invalid := by decide
example : classify emptyFS "/dapp@webXserviceYd" = .dir := by decide
example : classify emptyFS "/dapp@-_.service.d" = .dir := by decide
example : classify emptyFS "/dapp@web.service.d/dapp.conf" = .invalid := by decide
example : classify emptyFS "/nope" = .invalid := by decide
example : classify testFS "/dapp@web.service.d/dapp.conf" = .entityFile "web" := by decide
example : classify testFS "/dapp@webXserviceYd/dapp.conf" = .entityFile "web" := by decide
example : classify testFS "/dapp@web.service.d/other" = .invalid := by decide
example : (genconfig webDapp).take 40 = "#\n# Automatically generated by FUSE from" := by decide
example : fuseReaddir testFS "/dapp@web.service.d/dapp.conf" = .ok [".", "..", "dapp.conf"] := by decide
example : fuseAccess testFS "/" 2 = .error (.fuseError .EACCES) := by decide
example : (fuseOpen testFS "/dapp@web.service.d/dapp.conf").isOk = true := by decide

/-! ### Claim theorems -/

/-- Claim C1: the claim says that after two opens, releasing the
first-returned handle leaves the second handle allocated and readable,
and that `release` frees exactly the handle passed to it.  The code
instead deletes `filecache[self.lastfd]`, ignoring the `fh` argument:
after `open` returned 0 and then 1, `release(path, 0)` deletes handle 1
and keeps handle 0, and a subsequent read on handle 1 raises `KeyError`. -/
theorem release_deletes_lastfd_not_fh :
    fuseOpen testFS confPath = .ok (0, stOpen1) ∧
    fuseOpen stOpen1 confPath = .ok (1, stOpen2) ∧
    fuseRelease stOpen2 confPath 0 = .ok stRel ∧
    stRel.filecache.lookup 1 = none ∧
    stRel.filecache.lookup 0 = some webConf ∧
    fuseRead stRel confPath 1000 0 1 = .error .keyError := by
  refine ⟨rfl, rfl, rfl, rfl, rfl, rfl⟩

/-- Claim C3: the claim says `readdir` on an entity-file path fails with
`NotADirectory`.  The code's guard compares the classification against
`dict` (never produced), so `readdir` on the file path succeeds and
returns `['.', '..', 'dapp.conf']` instead of raising. -/
theorem readdir_on_file_returns_entries :
    fuseReaddir testFS confPath = .ok [".", "..", "dapp.conf"] := by
  rfl

/-- Claim C4: the claim says `read` and `release` on an unallocated
handle fail with `InvalidHandle`.  In the code, `read` raises a bare
`KeyError` (no errno), and `release` of the never-allocated handle 57
while handle 0 is open *succeeds*, deleting handle 0 instead of failing. -/
theorem invalid_handle_not_reported :
    fuseRead testFS confPath 5 0 0 = .error .keyError ∧
    fuseRelease stOpen1 confPath 57 = .ok { stOpen1 with filecache := [] } ∧
    fuseRead { stOpen1 with filecache := [] } confPath 5 0 0 = .error .keyError ∧
    fuseRelease emptyFS confPath 0 = .error .keyError := by
  refine ⟨rfl, rfl, rfl, rfl⟩

/-- Claim C5 counterexample: the generated text does not begin with the
header block quoted in the claim (`# Automatically generated from dApp
Hub catalog` / `# Do not edit`); the code writes different lines. -/
theorem genconfig_header_differs_from_claim :
    (genconfig webDapp).toList.take 67 ≠
      "#\n# Automatically generated from dApp Hub catalog\n# Do not edit\n#\n".toList := by
  decide

/-- Claim C5 (amended): every generated text begins with exactly the
lines `#`, `# Automatically generated by FUSE from dApp Hub JSON`,
`# Do not [attempt] to edit`, `#`, followed by `[Unit]` and the
`Description=` line. -/
theorem genconfig_header (d : Dapp) :
    ("#\n# Automatically generated by FUSE from dApp Hub JSON\n# Do not [attempt] to edit\n#\n[Unit]\nDescription=").toList <+:
      (genconfig d).toList := by
  show ("#\n# Automatically generated by FUSE from dApp Hub JSON\n# Do not [attempt] to edit\n#\n[Unit]\nDescription=").data <+: (genconfig d).data
  simp only [genconfig, String.data_append, List.append_assoc]
  exact List.prefix_append _ _

/-- Claim C6: for the descriptor with ports
`[{80,tcp,public}, {443,tcp,private}]`, the generated content contains
exactly one `Wants=forward-port@80-tcp.service` occurrence, no `Wants`
dependency for port 443, and a `DAPP_DOCKER_PORTS` value listing both
`-p80/tcp` and `-p443/tcp` (every port, not only public ones). -/
theorem wants_public_ports_docker_all_ports :
    (countSub (genconfig dualPortDapp).toList "Wants=forward-port@80-tcp.service".toList = 1 ∧
     countSub (genconfig dualPortDapp).toList "Wants=forward-port@443".toList = 0 ∧
     countSub (genconfig dualPortDapp).toList
       "Environment=DAPP_DOCKER_PORTS=\"-p80/tcp -p443/tcp\"".toList = 1) ∧
    (∀ d : Dapp, ∃ pre post : String,
      genconfig d = pre ++
        String.intercalate "\n" ((d.ports.filter fun p => p.ptype == "public").map fun p =>
          "Wants=forward-port@" ++ toString p.port ++ "-" ++ p.protocol ++ ".service") ++
        "\n\n" ++ post) ∧
    (∀ d : Dapp, ∃ pre post : String,
      genconfig d = pre ++ "Environment=DAPP_DOCKER_PORTS=\"" ++
        String.intercalate " " (d.ports.map fun p =>
          "-p" ++ toString p.port ++ "/" ++ p.protocol) ++ "\"" ++ post) := by
  refine ⟨⟨by decide, by decide, by decide⟩, fun d => ?_, fun d => ?_⟩
  · refine ⟨"#\n# Automatically generated by FUSE from dApp Hub JSON\n# Do not [attempt] to edit\n#\n[Unit]\nDescription=" ++ d.description ++ "\n",
      "[Service]\n" ++ "Environment=DAPP_DOCKER_PORTS=\"" ++
        String.intercalate " " (d.ports.map fun p =>
          "-p" ++ toString p.port ++ "/" ++ p.protocol) ++ "\"" ++
        "\n# Making sure we overwrite previous values\n" ++
        "Environment=DAPP_DOCKER_IMAGE=" ++ d.image ++ "\n" ++
        "Environment=DAPP_DOCKER_IMAGE_FILE=/var/lib/docker/preinstall/" ++
        String.mk (pyReplaceChar (pyReplaceChar d.image.toList '/' '_') ':' '_') ++ ".tar\n" ++
        "\n", ?_⟩
    simp only [genconfig, String.append_assoc]
  · refine ⟨"#\n# Automatically generated by FUSE from dApp Hub JSON\n# Do not [attempt] to edit\n#\n[Unit]\nDescription=" ++ d.description ++ "\n" ++
      String.intercalate "\n" ((d.ports.filter fun p => p.ptype == "public").map fun p =>
        "Wants=forward-port@" ++ toString p.port ++ "-" ++ p.protocol ++ ".service") ++
      "\n\n" ++ "[Service]\n",
      "\n# Making sure we overwrite previous values\n" ++
        "Environment=DAPP_DOCKER_IMAGE=" ++ d.image ++ "\n" ++
        "Environment=DAPP_DOCKER_IMAGE_FILE=/var/lib/docker/preinstall/" ++
        String.mk (pyReplaceChar (pyReplaceChar d.image.toList '/' '_') ':' '_') ++ ".tar\n" ++
        "\n", ?_⟩
    simp only [genconfig, String.append_assoc]

/-- Claim C10: because the dots of `.service.d` in the pattern are
unescaped wildcards, paths where they are replaced by other characters
are still accepted: `/dapp@webXserviceYd` classifies as a directory, and
`/dapp@webXserviceYd/dapp.conf` as the entity file of `web` when `web`
is in the catalog. -/
theorem unescaped_dots_widen_grammar :
    classify emptyFS "/dapp@webXserviceYd" = .dir ∧
    classify testFS "/dapp@webXserviceYd/dapp.conf" = .entityFile "web" := by
  refine ⟨by decide, by decide⟩

/-! ### Claim C2: the classifier on well-formed entity names -/

/-- Catalog containing a name with a digit, which the spec's grammar
`[A-Za-z0-9_-]+` admits. -/
def digitFS : FS :=
  { dapps := [("a0", { name := "a0", description := "x", image := "i", ports := [] })],
    cache := [], filecache := [], lastfd := -1, genLog := [] }

/-- Claim C2 counterexample: the source pattern's character class
`[A-Za-z-_]` has no digit range, so the catalog name `a0` — legal per
the claim's grammar — classifies as invalid for both the directory and
the entity-file path. -/
theorem classify_rejects_digit_names :
    classify digitFS "/dapp@a0.service.d" = .invalid ∧
    classify digitFS "/dapp@a0.service.d/dapp.conf" = .invalid := by
  refine ⟨by decide, by decide⟩

theorem takeWhile_append_all {p : Char → Bool} (l s : List Char)
    (h : ∀ c ∈ l, p c = true) :
    (l ++ s).takeWhile p = l ++ s.takeWhile p := by
  rw [List.takeWhile_append, if_pos]
  rw [List.takeWhile_eq_self_iff.2 h]

theorem dropWhile_append_all {p : Char → Bool} (l s : List Char)
    (h : ∀ c ∈ l, p c = true) (hs : s.dropWhile p = s) (hne : s ≠ []) :
    (l ++ s).dropWhile p = s := by
  rw [List.dropWhile_append, if_pos, hs]
  rw [List.dropWhile_eq_nil_iff.2 h]
  rfl

/-- `reMatch` on `/dapp@<l><sfx>` where `l` is a non-empty character-class
run and `sfx` starts with a non-class character: the greedy group 1
captures exactly `l` and the rest of the match is decided by
`matchRest sfx`. -/
theorem reMatch_group (l sfx : List Char) (hne : l ≠ [])
    (hall : ∀ c ∈ l, nameChar c = true)
    (hsfx : sfx.takeWhile nameChar = [])
    (hsfx2 : sfx.dropWhile nameChar = sfx)
    (hsne : sfx ≠ [])
    (g2 : Option (List Char)) (hmr : matchRest sfx = some g2) :
    reMatch ('/' :: 'd' :: 'a' :: 'p' :: 'p' :: '@' :: (l ++ sfx)) = some (l, g2) := by
  have h1 : (l ++ sfx).takeWhile nameChar = l := by
    rw [takeWhile_append_all l sfx hall, hsfx, List.append_nil]
  have h2 : (l ++ sfx).dropWhile nameChar = sfx :=
    dropWhile_append_all l sfx hall hsfx2 hsne
  show searchK ((l ++ sfx).takeWhile nameChar) ((l ++ sfx).dropWhile nameChar)
      ((l ++ sfx).takeWhile nameChar).length = some (l, g2)
  rw [h1, h2]
  cases l with
  | nil => exact absurd rfl hne
  | cons a t =>
    show searchK (a :: t) sfx (t.length + 1) = some (a :: t, g2)
    rw [searchK]
    have hd : (a :: t).drop (t.length + 1) = [] := List.drop_length (a :: t)
    have ht : (a :: t).take (t.length + 1) = a :: t := List.take_length (a :: t)
    rw [hd, List.nil_append, hmr, ht]

theorem dapp_path_data (n sfxStr : String) :
    ("/dapp@" ++ n ++ sfxStr).toList =
      '/' :: 'd' :: 'a' :: 'p' :: 'p' :: '@' :: (n.toList ++ sfxStr.toList) := by
  show ("/dapp@" ++ n ++ sfxStr).data = '/' :: 'd' :: 'a' :: 'p' :: 'p' :: '@' :: (n.data ++ sfxStr.data)
  simp only [String.data_append]
  rfl

/-- Claim C2 (amended): for every non-empty name `n` over the character
set actually accepted by the pattern — letters, hyphen, underscore, no
digits — `/dapp@<n>.service.d` classifies as a directory whatever the
catalog holds, and `/dapp@<n>.service.d/dapp.conf` classifies as the
entity file of `n` whenever `n` is a catalog key. -/
theorem classify_letter_names (fs : FS) (n : String)
    (hne : n.toList ≠ [])
    (hall : ∀ c ∈ n.toList, nameChar c = true) :
    classify fs ("/dapp@" ++ n ++ ".service.d") = .dir ∧
    ((fs.dapps.lookup n).isSome = true →
      classify fs ("/dapp@" ++ n ++ ".service.d/dapp.conf") = .entityFile n) := by
  have hmk : String.mk n.toList = n := rfl
  constructor
  · have hroot : ("/dapp@" ++ n ++ ".service.d") ≠ "/" := by
      intro h
      have hd := String.ext_iff.1 h
      rw [show ("/dapp@" ++ n ++ ".service.d").data =
            '/' :: 'd' :: 'a' :: 'p' :: 'p' :: '@' :: (n.toList ++ ".service.d".toList) from
            dapp_path_data n ".service.d"] at hd
      exact absurd (List.cons.injEq .. ▸ hd).2 (by simp)
    have hre : reMatch ("/dapp@" ++ n ++ ".service.d").toList = some (n.toList, none) := by
      rw [dapp_path_data n ".service.d"]
      exact reMatch_group n.toList ".service.d".toList hne hall (by decide) (by decide)
        (by decide) none (by decide)
    unfold classify
    rw [if_neg hroot, hre]
  · intro hmem
    have hroot : ("/dapp@" ++ n ++ ".service.d/dapp.conf") ≠ "/" := by
      intro h
      have hd := String.ext_iff.1 h
      rw [show ("/dapp@" ++ n ++ ".service.d/dapp.conf").data =
            '/' :: 'd' :: 'a' :: 'p' :: 'p' :: '@' :: (n.toList ++ ".service.d/dapp.conf".toList) from
            dapp_path_data n ".service.d/dapp.conf"] at hd
      exact absurd (List.cons.injEq .. ▸ hd).2 (by simp)
    have hre : reMatch ("/dapp@" ++ n ++ ".service.d/dapp.conf").toList =
        some (n.toList, some "/dapp.conf".toList) := by
      rw [dapp_path_data n ".service.d/dapp.conf"]
      exact reMatch_group n.toList ".service.d/dapp.conf".toList hne hall (by decide)
        (by decide) (by decide) (some "/dapp.conf".toList) (by decide)
    unfold classify
    rw [if_neg hroot, hre]
    show (if (fs.dapps.lookup (String.mk n.toList)).isSome then
        if "/dapp.conf".toList = "/dapp.conf".toList then
          Classification.entityFile (String.mk n.toList)
        else .invalid
      else .invalid) = .entityFile n
    rw [hmk, if_pos hmem, if_pos rfl]

/-- Witness for `classify_letter_names` at `n = "web"` over `testFS`. -/
theorem classify_letter_names_witness :
    classify testFS ("/dapp@" ++ "web" ++ ".service.d") = .dir ∧
    classify testFS ("/dapp@" ++ "web" ++ ".service.d/dapp.conf") = .entityFile "web" :=
  ⟨(classify_letter_names testFS "web" (by decide) (by decide)).1,
   (classify_letter_names testFS "web" (by decide) (by decide)).2 (by decide)⟩

/-! ### Claim C7: `read` clips the slice to the content size -/

theorem pySlice_eq_drop_take (d : List Char) (offset length : Nat) :
    pySlice d offset ((offset : Int) + min ((d.length : Int) - (offset : Int)) (length : Int)) =
      (d.drop offset).take length := by
  unfold pySlice
  by_cases h : offset ≤ d.length
  · have he : ((offset : Int) + min ((d.length : Int) - (offset : Int)) (length : Int)).toNat =
        min d.length (offset + length) := by omega
    rw [he, List.drop_take]
    have h2 : min d.length (offset + length) - offset = min (d.length - offset) length := by
      omega
    rw [h2, ← List.length_drop offset d, min_comm, ← List.take_take, List.take_length]
  · have he : ((offset : Int) + min ((d.length : Int) - (offset : Int)) (length : Int)).toNat =
        d.length := by omega
    rw [he, List.take_length, List.drop_eq_nil_of_le (by omega), List.take_nil]

/-- Claim C7: for an allocated handle holding (ASCII) content, `read`
returns exactly the slice `[offset, offset+length)` clipped to the
content size, and an offset at or past the end yields an empty result
rather than an error. -/
theorem read_clips_to_content (fs : FS) (path : String) (fh : Int) (doc : String)
    (offset length : Nat)
    (halloc : fs.filecache.lookup fh = some doc)
    (hascii : ∀ c ∈ doc.toList, c.toNat < 128) :
    fuseRead fs path length offset fh =
      .ok (((doc.toList.drop offset).take length).map Char.toNat) ∧
    (doc.length ≤ offset → fuseRead fs path length offset fh = .ok []) := by
  have hmain : fuseRead fs path length offset fh =
      .ok (((doc.toList.drop offset).take length).map Char.toNat) := by
    simp only [fuseRead, halloc]
    rw [pySlice_eq_drop_take]
    rw [if_pos]
    exact List.all_eq_true.2 fun c hc =>
      decide_eq_true (hascii c (List.mem_of_mem_drop (List.mem_of_mem_take hc)))
  refine ⟨hmain, fun hle => ?_⟩
  rw [hmain]
  have hnil : doc.toList.drop offset = [] :=
    List.drop_eq_nil_of_le (show doc.toList.length ≤ offset from hle)
  rw [hnil, List.take_nil, List.map_nil]

/-- Witness for `read_clips_to_content` on the open handle of `stOpen1`:
the first three bytes of the config, and an empty read past the end. -/
theorem read_clips_to_content_witness :
    fuseRead stOpen1 confPath 3 0 0 = .ok [35, 10, 35] ∧
    fuseRead stOpen1 confPath 3 5000 0 = .ok [] := by
  constructor
  · have h := (read_clips_to_content stOpen1 confPath 0 webConf 0 3 rfl (by decide)).1
    rw [h]
    decide
  · exact (read_clips_to_content stOpen1 confPath 0 webConf 5000 3 rfl (by decide)).2
      (by decide)

/-! ### Claim C8: the config cache memoises generation -/

/-- A freshly constructed instance over the catalog `cat` (the state of
`__init__` after loading, at process start). -/
def initFS (cat : List (String × Dapp)) : FS :=
  { dapps := cat, cache := [], filecache := [], lastfd := -1, genLog := [] }

/-- One `getconfig` call, keeping only the state (a failed call — a
`KeyError` on a name outside the catalog — aborts that FUSE request and
leaves the state unchanged). -/
def stepGet (fs : FS) (n : String) : FS :=
  match getconfig fs n with
  | some (_, fs') => fs'
  | none => fs

/-- A whole process lifetime of `getconfig` calls. -/
def runGets (calls : List String) (fs : FS) : FS :=
  calls.foldl stepGet fs

theorem stepGet_count_inv (n : String) (fs : FS)
    (h : fs.genLog.count n ≤ if (fs.cache.lookup n).isSome then 1 else 0) (m : String) :
    (stepGet fs m).genLog.count n ≤
      if ((stepGet fs m).cache.lookup n).isSome then 1 else 0 := by
  unfold stepGet getconfig
  cases hc : fs.cache.lookup m with
  | some v => exact h
  | none =>
    cases hd : fs.dapps.lookup m with
    | none => exact h
    | some d =>
      simp only [List.count_cons, List.lookup_cons]
      by_cases hmn : n = m
      · subst hmn
        rw [hc] at h
        simp only [Option.isSome_none, Bool.false_eq_true, if_false, Nat.le_zero] at h
        simp [h]
      · have hbeq : (n == m) = false := by
          exact beq_false_of_ne hmn
        simp only [hbeq, beq_self_eq_true]
        simp only [show (m == n) = false from beq_false_of_ne (Ne.symm hmn)]
        simpa using h

theorem runGets_count_inv (n : String) (calls : List String) (fs : FS)
    (h : fs.genLog.count n ≤ if (fs.cache.lookup n).isSome then 1 else 0) :
    (runGets calls fs).genLog.count n ≤
      if ((runGets calls fs).cache.lookup n).isSome then 1 else 0 := by
  induction calls generalizing fs with
  | nil => exact h
  | cons m rest ih => exact ih (stepGet fs m) (stepGet_count_inv n fs h m)

/-- Claim C8: `getconfig` is idempotent — a second call for the same
name returns the same string and the same state — and over any sequence
of `getconfig` calls in a process lifetime the generator is invoked at
most once per name (the ghost `genLog` records invocations). -/
theorem getconfig_memoises :
    (∀ (fs : FS) (n v : String) (fs' : FS),
        getconfig fs n = some (v, fs') → getconfig fs' n = some (v, fs')) ∧
    (∀ (cat : List (String × Dapp)) (calls : List String) (n : String),
        (runGets calls (initFS cat)).genLog.count n ≤ 1) := by
  constructor
  · intro fs n v fs' hcall
    unfold getconfig at hcall ⊢
    cases hc : fs.cache.lookup n with
    | some w =>
      rw [hc] at hcall
      simp only [Option.some.injEq, Prod.mk.injEq] at hcall
      rw [← hcall.2, hc, hcall.1]
    | none =>
      rw [hc] at hcall
      cases hd : fs.dapps.lookup n with
      | none => rw [hd] at hcall; exact absurd hcall (by simp)
      | some d =>
        rw [hd] at hcall
        simp only [Option.some.injEq, Prod.mk.injEq] at hcall
        rw [← hcall.2]
        simp only [List.lookup_cons, beq_self_eq_true]
        rw [hcall.1]
  · intro cat calls n
    have h := runGets_count_inv n calls (initFS cat) (by simp [initFS])
    exact le_trans h (by split <;> omega)

/-- The state after `getconfig testFS "web"`: the text is cached and the
generator was invoked once. -/
def stGet : FS :=
  { dapps := [("web", webDapp)], cache := [("web", webConf)],
    filecache := [], lastfd := -1, genLog := ["web"] }

/-- Witness for `getconfig_memoises`: over `testFS`, a repeated call for
`web` returns the cached text unchanged, and three `getconfig` calls
invoke the generator exactly once. -/
theorem getconfig_memoises_witness :
    getconfig stGet "web" = some (webConf, stGet) ∧
    (runGets ["web", "web", "web"] (initFS [("web", webDapp)])).genLog.count "web" ≤ 1 :=
  ⟨getconfig_memoises.1 testFS "web" webConf stGet rfl,
   getconfig_memoises.2 [("web", webDapp)] ["web", "web", "web"] "web"⟩

/-! ### Claim C9: the access-check policy on valid paths -/

theorem fuseAccess_on_dir (fs : FS) (path : String) (mode : Nat)
    (hcls : classify fs path = .dir) :
    fuseAccess fs path mode =
      if mode &&& 2 != 0 then .error (.fuseError .EACCES) else .ok () := by
  unfold fuseAccess getobj
  rw [hcls]
  show (if ((mode &&& 2 != 0) || (!true && (mode &&& 1 != 0))) = true then
      (.error (.fuseError .EACCES) : Except PyErr Unit) else .ok ()) =
    if mode &&& 2 != 0 then .error (.fuseError .EACCES) else .ok ()
  simp

theorem fuseAccess_on_file (fs : FS) (path : String) (mode : Nat) (n : String)
    (hcls : classify fs path = .entityFile n) :
    fuseAccess fs path mode =
      if (mode &&& 2 != 0) || (mode &&& 1 != 0) then
        .error (.fuseError .EACCES)
      else .ok () := by
  unfold fuseAccess getobj
  rw [hcls]
  show (if ((mode &&& 2 != 0) || (!false && (mode &&& 1 != 0))) = true then
      (.error (.fuseError .EACCES) : Except PyErr Unit) else .ok ()) =
    if (mode &&& 2 != 0) || (mode &&& 1 != 0) then .error (.fuseError .EACCES) else .ok ()
  simp

/-- Claim C9: on any valid path, a request with the write bit
(`os.W_OK = 2`) set is denied; a request with the execute bit
(`os.X_OK = 1`) set on an entity-file classification is denied; every
other mode on a valid path succeeds. -/
theorem access_policy (fs : FS) (path : String) (mode : Nat)
    (hvalid : classify fs path ≠ .invalid) :
    (mode &&& 2 ≠ 0 → fuseAccess fs path mode = .error (.fuseError .EACCES)) ∧
    (∀ n, classify fs path = .entityFile n → mode &&& 1 ≠ 0 →
        fuseAccess fs path mode = .error (.fuseError .EACCES)) ∧
    (mode &&& 2 = 0 →
      ((∀ n, classify fs path ≠ .entityFile n) ∨ mode &&& 1 = 0) →
        fuseAccess fs path mode = .ok ()) := by
  cases hcls : classify fs path with
  | invalid => exact absurd hcls hvalid
  | dir =>
    rw [fuseAccess_on_dir fs path mode hcls]
    refine ⟨fun hw => ?_, fun n hn => absurd hn (by simp), fun hw _ => ?_⟩
    · rw [if_pos (bne_iff_ne.2 hw)]
    · rw [if_neg (by simp [hw])]
  | entityFile name =>
    rw [fuseAccess_on_file fs path mode name hcls]
    refine ⟨fun hw => ?_, fun n hn hx => ?_, fun hw hother => ?_⟩
    · rw [if_pos (by simp [bne_iff_ne.2 hw])]
    · rw [if_pos (by simp [bne_iff_ne]; exact Or.inr (by have hm := Nat.and_one_is_mod mode; omega))]
    · have hx : mode &&& 1 = 0 := by
        cases hother with
        | inl hall => exact absurd rfl (hall name)
        | inr hx => exact hx
      rw [if_neg (by simp [hw, hx])]

/-- Witness for `access_policy`: over `testFS`, a write-mode check on
the root is denied, an execute-mode check on the entity file is denied,
and a read-mode check on the entity file succeeds. -/
theorem access_policy_witness :
    fuseAccess testFS "/" 2 = .error (.fuseError .EACCES) ∧
    fuseAccess testFS confPath 1 = .error (.fuseError .EACCES) ∧
    fuseAccess testFS confPath 4 = .ok () :=
  ⟨(access_policy testFS "/" 2 (by decide)).1 (by decide),
   (access_policy testFS confPath 1 (by decide)).2.1 "web" (by decide) (by decide),
   (access_policy testFS confPath 4 (by decide)).2.2 (by decide) (Or.inr (by decide))⟩
